import Mathlib

/-!
Verification of the weighted-ensemble (WE) simulation driver against its
specification.  The development shallowly embeds the two source files:

* `src/wemd/sim_manager.py` — the `WESimManager` state machine: driver
  loading, the run loop's wall-clock/iteration limits, and the body of one
  WE iteration (weight check, first-entry statistics, propagation commit,
  verification, endpoint-type assignment, materialization of the next
  iteration's segments, and the commit/flush/advance sequence).
* `src/westtools/aframe/binning.py` — the `record_data_binhash` /
  `check_data_binhash` pair of `BinningMixin`.

Weights are modelled as rationals (the source uses floating point doubles;
all claims under study are exact-arithmetic properties such as "weight is
zero" or "the minimum over an empty selection fails", which are faithfully
captured over ℚ).  Python `assert` failures, `RuntimeError`, `TypeError`,
numpy's empty-reduction `ValueError` and `ZeroDivisionError` are modelled
as values of an error type returned through `Except` / `Option`.

Persistence follows the specification's durability model (§5 of the spec:
"the driver assumes `flush_backing()` provides a durable barrier"): a store
carries a `written` state (mutated by `update_segments`,
`prepare_iteration`, and assignment to `current_iteration`) and a
`flushed` state, updated to `written` only by `flush_backing`.  The
*committed* state visible after a crash is the `flushed` component.
-/

/-- Progress-coordinate vector: one point of the progress coordinate. -/
abbrev Pcoord := List ℚ

/-- Segment status, from `Segment.SEG_STATUS_*` in `wemd.types`. -/
inductive SegStatus
  | prepared
  | running
  | complete
  | failed
deriving DecidableEq, Repr

/-- Endpoint type, from `Segment.SEG_ENDPOINT_TYPE_*` in `wemd.types`. -/
inductive EndpointType
  | continues
  | merged
  | recycled
deriving DecidableEq, Repr

/-- One trajectory segment.  `wemd.types.Segment` is not part of the two
embedded source files; its fields are taken from the specification's data
model (§3).  `endpoint_type` is `none` until the sealing step writes it. -/
structure Segment where
  seg_id : Option Int := none
  weight : ℚ := 0
  pcoord : List Pcoord := []
  status : SegStatus := SegStatus.prepared
  p_parent_id : Option Int := none
  parent_ids : Finset Int := ∅
  n_parents : ℕ := 0
  endpoint_type : Option EndpointType := none
  cputime : ℚ := 0
deriving DecidableEq

/-- A particle, the lightweight resampler currency (spec §3). -/
structure Particle where
  seg_id : Option Int := none
  weight : ℚ := 0
  pcoord : Pcoord := []
  p_parent_id : Option Int := none
  parent_ids : Finset Int := ∅
deriving DecidableEq

/-- Observable state of one bin of the region set: `count`,
`target_count` and `weight`, as read by `vgetattr` in `run()`. -/
structure BinState where
  count : ℕ := 0
  target_count : ℕ := 0
  weight : ℚ := 0
deriving DecidableEq, Repr

/-- Runtime failures of the driver, each tagged with the Python exception
it embeds: `assertionError` for failed `assert` statements,
`propagationFailed` for the `RuntimeError` of line 207 (carrying the
seg_ids of the failed segments), `valueError` for numpy reductions over
empty arrays, `zeroDivisionError` for the `n_pop/n_bins` division, and
`typeError` for `float + None`. -/
inductive RunError
  | assertionError
  | propagationFailed (seg_ids : List (Option Int))
  | valueError
  | zeroDivisionError
  | typeError
deriving DecidableEq, Repr

/-- Store-related events emitted by the iteration body, in program order.
`commitEndpoints` is the `update_segments` of line 199,
`commitEndpointTypes` the one of line 268, `commitNext` the
`prepare_iteration` of line 304, `advance` the `current_iteration`
assignment of line 324, and `flush` each `flush_backing` call. -/
inductive Event
  | writeBinData
  | updateIterSummary
  | writeRecycling
  | commitEndpoints
  | commitEndpointTypes
  | commitNext
  | advance
  | flush
deriving DecidableEq, Repr

/-! ## Binning mixin (`src/westtools/aframe/binning.py`) -/

/-- A hash digest, modelled as the byte string it is in the source. -/
abbrev Digest := List ℕ

/-- An HDF5 object (group or dataset): its attribute dictionary.
`attrs.get` returns `none` for a missing attribute. -/
structure H5Object where
  attrs : List (String × Digest) := []
deriving DecidableEq, Repr

/-- `h5object.attrs.get(key)` — first binding wins, `none` if absent. -/
def H5Object.attrsGet (o : H5Object) (key : String) : Option Digest :=
  o.attrs.lookup key

/-- `h5object.attrs[key] = v` — dictionary assignment. -/
def H5Object.attrsSet (o : H5Object) (key : String) (v : Digest) : H5Object :=
  { o with attrs := (key, v) :: o.attrs.filter (fun kv => decide (kv.1 ≠ key)) }

/-- `BinningMixin.record_data_binhash` (binning.py lines 128-130): store the
region set's identity-hash digest as the `binhash` attribute. -/
def record_data_binhash (o : H5Object) (region_set_hash : Digest) : H5Object :=
  o.attrsSet "binhash" region_set_hash

/-- `BinningMixin.check_data_binhash` (binning.py lines 132-134): compare
the stored `binhash` attribute with the current digest.  In Python a
missing attribute compares as `None == digest`, i.e. `False`; here the
comparison of the `Option` with `some digest` is the same function. -/
def check_data_binhash (o : H5Object) (region_set_hash : Digest) : Bool :=
  decide (o.attrsGet "binhash" = some region_set_hash)

/-! ## Driver loading (`sim_manager.py` lines 40-47) -/

/-- ASCII lower-casing of one character, as `str.lower` acts on the
driver names appearing in the configuration. -/
def lowerChar (c : Char) : Char :=
  if 'A' ≤ c ∧ c ≤ 'Z' then Char.ofNat (c.toNat + 32) else c

/-- `drivername.lower()`. -/
def pyLower (s : String) : String := ⟨s.data.map lowerChar⟩

/-- A loaded driver object: either the built-in default WE driver
(`wemd.we_driver.WEMDWEDriver`) or an external object loaded by name via
`extloader.get_object`. -/
inductive DriverObj
  | defaultWEDriver
  | externalDriver (name : String)
deriving DecidableEq, Repr

/-- The two manager fields of `WESimManager` touched by
`load_we_driver`. -/
structure ManagerState where
  we_driver : Option DriverObj := none
  work_manager : Option DriverObj := none
deriving DecidableEq, Repr

/-- `WESimManager.load_we_driver` (sim_manager.py lines 40-47).  The
configuration value of `drivers.we_driver` defaults to `"default"`.  Note
that the non-default branch of the source assigns the loaded object to
`self.work_manager` (line 46), not to `self.we_driver`. -/
def load_we_driver (cfg_we_driver : Option String) (st : ManagerState) : ManagerState :=
  let drivername := cfg_we_driver.getD "default"
  if pyLower drivername = "default" then
    { st with we_driver := some DriverObj.defaultWEDriver }
  else
    { st with work_manager := some (DriverObj.externalDriver drivername) }

/-! ## Wall-clock setup and budget check (`sim_manager.py` lines 96-115) -/

/-- `run_killtime = run_starttime + max_walltime` (line 99), where
`max_walltime` is `None` when `limits.max_wallclock` is unset.  In Python
`float + None` raises `TypeError`. -/
def run_killtime_setup (run_starttime : ℚ) (max_walltime : Option ℚ) : Except RunError ℚ :=
  match max_walltime with
  | none => Except.error RunError.typeError
  | some w => Except.ok (run_starttime + w)

/-- The per-iteration budget check of line 111:
`if max_walltime and time.time() + iteration_elapsed >= run_killtime`.
Python truthiness makes both `None` and `0.0` skip the comparison. -/
def budget_check (max_walltime : Option ℚ) (now iteration_elapsed run_killtime : ℚ) : Bool :=
  match max_walltime with
  | none => false
  | some w => if w = 0 then false else decide (now + iteration_elapsed ≥ run_killtime)

/-! ## Iteration limits and loop index sequence (lines 104-109, 323) -/

/-- `max_iter = runtime_config.get_int('limits.max_iterations', n_iter+1)`
(line 105): the configured value, or `current + 1` when unset. -/
def maxIterSetting (current : Int) (configured : Option Int) : Int :=
  configured.getD (current + 1)

/-- The sequence of `n_iter` values for which the `while n_iter <= max_iter`
loop (lines 109-325) executes its body: `n_iter` starts at `current` and is
incremented by one at line 323 until it exceeds `max_iter`. -/
def loopIters (current max_iter : Int) : List Int :=
  if current ≤ max_iter then current :: loopIters (current + 1) max_iter else []
termination_by (max_iter + 1 - current).toNat
decreasing_by omega

/-! ## Weight check (lines 121-123) -/

/-- Lines 121-123: `seg_weights = vgetattr('weight', segments, float64)`;
`assert not (seg_weights == 0).any()`; `norm = seg_weights.sum()`.  A zero
weight fails the assertion; otherwise the norm is returned. -/
def checkSegWeights (segments : List Segment) : Except RunError ℚ :=
  let seg_weights := segments.map (fun s => s.weight)
  if seg_weights.any (fun w => decide (w = 0)) then Except.error RunError.assertionError
  else Except.ok seg_weights.sum

/-! ## First-entry statistics (lines 129-158) -/

/-- Lines 134-145: if every bin's `count` is zero (first iteration of this
process), bin each segment on its initial progress-coordinate point and
add it to that bin; `bin.add(particle)` increments the bin's count and
adds the particle's weight.  `assign` models
`region_set.map_to_bins`, i.e. the bin index of a pcoord point; the source
reads `segment.pcoord[0]`, assumed present (`headD` supplies the default
for the empty case the source would fault on). -/
def binsAfterInitial (assign : Pcoord → ℕ) (bins : List BinState)
    (segments : List Segment) : List BinState :=
  if bins.all (fun b => decide (b.count = 0)) then
    segments.foldl (fun bs seg =>
      let i := assign (seg.pcoord.headD [])
      bs.mapIdx (fun j b =>
        if j = i then { b with count := b.count + 1, weight := b.weight + seg.weight }
        else b)) bins
  else bins

/-- numpy `xs[xs != 0].min()` — the minimum of the nonzero entries;
raises `ValueError` when the selection is empty. -/
def minNonzero (xs : List ℚ) : Except RunError ℚ :=
  match xs.filter (fun x => decide (x ≠ 0)) with
  | [] => Except.error RunError.valueError
  | y :: ys => Except.ok (ys.foldl min y)

/-- numpy `xs.max()` — raises `ValueError` on an empty array. -/
def maxAll (xs : List ℚ) : Except RunError ℚ :=
  match xs with
  | [] => Except.error RunError.valueError
  | y :: ys => Except.ok (ys.foldl max y)

/-- The statistics computed by the first-entry block.  The source reports
dynamic ranges as `math.log(max/min)`; since `log` is strictly monotone
and total on the positive ratios produced here, the ratio itself is
recorded. -/
structure IterStats where
  n_bins : ℕ
  n_pop : ℕ
  popFraction : ℚ
  min_seg_prob : ℚ
  max_seg_prob : ℚ
  seg_range_ratio : ℚ
  min_bin_prob : ℚ
  max_bin_prob : ℚ
  bin_range_ratio : ℚ
deriving DecidableEq, Repr

/-- Lines 134-158 of `run()`: the statistics block executed on first entry
into an iteration.  Computation order follows the source: the per-segment
nonzero minimum (line 151) and maximum (line 152) first, then
`math.log(max_seg_prob/min_seg_prob)` (line 153) — `math.log` raises
`ValueError` whenever its argument is not positive, so the ratio's sign is
checked here and, `log` being strictly monotone and total on the positive
ratios that remain, the ratio itself is recorded — then the per-bin
nonzero minimum (line 154), maximum (line 155) and logarithm (line 156)
the same way, then the populated-bin fraction `n_pop/n_bins` (line 158),
which divides by zero when no bin has a nonzero `target_count`. -/
def firstEntryStats (assign : Pcoord → ℕ) (bins0 : List BinState)
    (segments : List Segment) : Except RunError IterStats :=
  let bins := binsAfterInitial assign bins0 segments
  let n_bins := (bins.filter (fun b => decide (b.target_count ≠ 0))).length
  let seg_probs := segments.map (fun s => s.weight)
  let bin_probs := bins.map (fun b => b.weight)
  match minNonzero seg_probs with
  | Except.error e => Except.error e
  | Except.ok min_seg_prob =>
    match maxAll seg_probs with
    | Except.error e => Except.error e
    | Except.ok max_seg_prob =>
      if max_seg_prob / min_seg_prob ≤ 0 then Except.error RunError.valueError
      else
        match minNonzero bin_probs with
        | Except.error e => Except.error e
        | Except.ok min_bin_prob =>
          match maxAll bin_probs with
          | Except.error e => Except.error e
          | Except.ok max_bin_prob =>
            if max_bin_prob / min_bin_prob ≤ 0 then Except.error RunError.valueError
            else
              let n_pop := (bins.filter (fun b => decide (b.count ≠ 0))).length
              if n_bins = 0 then Except.error RunError.zeroDivisionError
              else Except.ok
                { n_bins := n_bins
                  n_pop := n_pop
                  popFraction := (n_pop : ℚ) / (n_bins : ℚ)
                  min_seg_prob := min_seg_prob
                  max_seg_prob := max_seg_prob
                  seg_range_ratio := max_seg_prob / min_seg_prob
                  min_bin_prob := min_bin_prob
                  max_bin_prob := max_bin_prob
                  bin_range_ratio := max_bin_prob / min_bin_prob }

/-! ## Endpoint-type assignment (lines 256-266) -/

/-- Lines 258-266 of `run()`: every segment's `endpoint_type` is first set
to `CONTINUES`; then each `seg_id` in the WE driver's
`recycle_terminations` is overwritten to `RECYCLED`; then each `seg_id` in
`merge_terminations` is overwritten to `MERGED`.  Segment lists are
ordered by `seg_id`, so `segments[seg_id]` is the element at that index
(source comment at line 107); the per-set mutation loops are rendered as
indexed rewrites. -/
def assignEndpointTypes (segments : List Segment)
    (recycle_terminations merge_terminations : Finset Int) : List Segment :=
  let s1 := segments.map (fun s => { s with endpoint_type := some EndpointType.continues })
  let s2 := s1.mapIdx (fun i s =>
    if (i : Int) ∈ recycle_terminations then { s with endpoint_type := some EndpointType.recycled }
    else s)
  s2.mapIdx (fun i s =>
    if (i : Int) ∈ merge_terminations then { s with endpoint_type := some EndpointType.merged }
    else s)

/-! ## Materialization of next-iteration segments (lines 276-301) -/

/-- Lines 280-301 of `run()`: build one new `PREPARED` segment from one
offspring particle.  `numpy.expand_dims(particle.pcoord, 0)` makes the
particle's point element 0 of the new pcoord trajectory.  The source's
`assert` statements become `assertionError` results.  (The additional
source assertion `None not in particle.parent_ids` is vacuous here because
`parent_ids` is typed as a set of integers.) -/
def materializeSegment (particle : Particle) : Except RunError Segment :=
  let segment : Segment :=
    { seg_id := none
      weight := particle.weight
      pcoord := [particle.pcoord]
      status := SegStatus.prepared }
  match particle.p_parent_id with
  | none =>
    if particle.parent_ids = ∅ then
      match particle.seg_id with
      | none => Except.error RunError.assertionError
      | some sid =>
        let seg := { segment with p_parent_id := some sid, parent_ids := {sid} }
        Except.ok { seg with n_parents := seg.parent_ids.card }
    else Except.error RunError.assertionError
  | some pp =>
    if particle.parent_ids = ∅ then Except.error RunError.assertionError
    else if particle.seg_id ≠ none then Except.error RunError.assertionError
    else
      let seg := { segment with p_parent_id := some pp, parent_ids := particle.parent_ids }
      Except.ok { seg with n_parents := seg.parent_ids.card }

/-- The `for particle in next_iter_particles` loop of lines 277-301:
materialize every offspring particle in order; the first failed assertion
aborts. -/
def materializeAll (next_iter_particles : List Particle) : Except RunError (List Segment) :=
  next_iter_particles.mapM materializeSegment

/-! ## Persistent store -/

/-- The slice of the data manager's state the claims observe: iteration
*n*'s segment records, iteration *n*+1's seed segments once prepared, and
the `current_iteration` pointer. -/
structure StoreState where
  curSegs : List Segment := []
  nextSegs : Option (List Segment) := none
  current_iteration : Int := 0
deriving DecidableEq

/-- A store with write-ahead semantics: mutators change `written`;
`flush_backing` is the durability barrier copying `written` to `flushed`.
After a crash the surviving (committed) state is `flushed`. -/
structure Store where
  written : StoreState := {}
  flushed : StoreState := {}
deriving DecidableEq

/-- `data_manager.update_segments(n_iter, segments)`. -/
def Store.update_segments (st : Store) (segments : List Segment) : Store :=
  { st with written := { st.written with curSegs := segments } }

/-- `data_manager.prepare_iteration(n_iter+1, new_segments, ...)`. -/
def Store.prepare_iteration (st : Store) (new_segments : List Segment) : Store :=
  { st with written := { st.written with nextSegs := some new_segments } }

/-- `data_manager.flush_backing()`. -/
def Store.flush_backing (st : Store) : Store :=
  { st with flushed := st.written }

/-- `data_manager.current_iteration = n_iter` (line 324). -/
def Store.set_current_iteration (st : Store) (n : Int) : Store :=
  { st with written := { st.written with current_iteration := n } }

/-- The WE driver's outputs consumed by the iteration body after
`run_we` (the resampler itself lives in `wemd.we_driver`, outside the
embedded sources, so its result is an input here). -/
structure WEOutput where
  next_iter_particles : List Particle := []
  recycle_terminations : Finset Int := ∅
  merge_terminations : Finset Int := ∅
deriving DecidableEq

/-- Outcome of one execution of the iteration body: the store events it
emitted in order, the store as left behind, the error (`none` on success,
otherwise the exception that aborted the body), and the materialized
segments handed to the next loop iteration. -/
structure IterResult where
  trace : List Event
  store : Store
  error : Option RunError
  new_segments : List Segment
deriving DecidableEq

/-- The body of the `while n_iter <= max_iter` loop of `run()`
(sim_manager.py lines 117-325), for one iteration.

Inputs that the body receives from collaborators outside the embedded
source are parameters: `assign` stands for `system.region_set`'s pcoord
to bin-index map, `propagate` for the work manager's synchronous
`propagate` (the source passes the full segment list and reads the
mutated statuses back), and `we` for the resampler's outputs.

Steps, in source order: the zero-weight assertion (121-123); the
first-entry statistics block (129-178) when every segment is `PREPARED`
(detected as in the source by comparing the filtered count with the total
count), emitting `write_bin_data`/`update_iter_summary`; propagation
(193); the endpoint commit `update_segments` (199); the completeness
verification raising `RuntimeError` with the failed seg_ids (202-207);
recycling bookkeeping `write_recycling_data` (254); the endpoint-type
assignment (258-266) and its commit plus `flush_backing` (268-269);
materialization of the next iteration's segments (276-301);
`prepare_iteration` (304); the summary update and `flush_backing`
(320-321); and the advance of `current_iteration` (323-324). -/
def iterationBody (store0 : Store) (segments : List Segment)
    (bins : List BinState) (assign : Pcoord → ℕ)
    (propagate : List Segment → List Segment) (we : WEOutput)
    (n_iter : Int) : IterResult :=
  match checkSegWeights segments with
  | Except.error e => ⟨[], store0, some e, []⟩
  | Except.ok _norm =>
    let segs_to_run := segments.filter (fun s => decide (s.status = SegStatus.prepared))
    let firstEntry : Option RunError × List Event :=
      if segs_to_run.length = segments.length then
        match firstEntryStats assign bins segments with
        | Except.error e => (some e, [])
        | Except.ok _ => (none, [Event.writeBinData, Event.updateIterSummary])
      else (none, [])
    match firstEntry with
    | (some e, _) => ⟨[], store0, some e, []⟩
    | (none, statsEvents) =>
      let propagated := propagate segments
      let store1 := store0.update_segments propagated
      let trace1 := statsEvents ++ [Event.commitEndpoints]
      let failed_segments := propagated.filter (fun s => decide (s.status ≠ SegStatus.complete))
      if failed_segments = [] then
        let typed := assignEndpointTypes propagated we.recycle_terminations we.merge_terminations
        let store2 := (store1.update_segments typed).flush_backing
        let trace2 := trace1 ++ [Event.writeRecycling, Event.commitEndpointTypes, Event.flush]
        match materializeAll we.next_iter_particles with
        | Except.error e => ⟨trace2, store2, some e, []⟩
        | Except.ok new_segments =>
          let store3 := (store2.prepare_iteration new_segments).flush_backing
          let store4 := store3.set_current_iteration (n_iter + 1)
          ⟨trace2 ++ [Event.commitNext, Event.updateIterSummary, Event.flush, Event.advance],
           store4, none, new_segments⟩
      else
        ⟨trace1, store1,
         some (RunError.propagationFailed (failed_segments.map (fun s => s.seg_id))), []⟩

/-! ## Trace predicates for the durable-transition claims -/

/-- The four durable transitions of the specification's state machine. -/
def isTransition : Event → Bool
  | Event.commitEndpoints => true
  | Event.commitEndpointTypes => true
  | Event.commitNext => true
  | Event.advance => true
  | _ => false

/-- Keep the durable transitions and the flushes of a trace. -/
def isKeyEvent : Event → Bool
  | Event.commitEndpoints => true
  | Event.commitEndpointTypes => true
  | Event.commitNext => true
  | Event.advance => true
  | Event.flush => true
  | _ => false

/-- Project a trace onto its durable transitions and flushes. -/
def keyEvents (trace : List Event) : List Event :=
  trace.filter isKeyEvent

/-- Check that every durable transition in a trace is followed by a flush
before the next durable transition occurs; the flag records whether a
transition is still awaiting its flush. -/
def eachTransitionFlushed : List Event → Bool → Bool
  | [], _ => true
  | e :: rest, pending =>
    if isTransition e then !pending && eachTransitionFlushed rest true
    else if e = Event.flush then eachTransitionFlushed rest false
    else eachTransitionFlushed rest pending

/-- Whether an `Except` computation succeeded. -/
def exceptIsOk {ε α : Type} (e : Except ε α) : Bool :=
  match e with
  | Except.ok _ => true
  | Except.error _ => false

/-! ## Concrete fixtures used by witnesses and counterexamples -/

/-- A freshly loaded segment of weight one. -/
def plainSegment : Segment :=
  { seg_id := some 0, weight := 1, pcoord := [[0]], status := SegStatus.prepared }

/-- A segment already carrying a zero weight. -/
def zeroWeightSegment : Segment :=
  { seg_id := some 0, weight := 0, pcoord := [[0]], status := SegStatus.prepared }

/-- A segment whose propagation has already completed. -/
def completeSegment : Segment :=
  { seg_id := some 0, weight := 1, pcoord := [[0]], status := SegStatus.complete }

/-- An offspring particle that came straight from one endpoint. -/
def directParticle : Particle :=
  { seg_id := some 3, weight := 1, pcoord := [0] }

/-- An offspring particle produced by a merge of segments 1 and 2. -/
def mergedParticle : Particle :=
  { seg_id := none, weight := 1, pcoord := [0], p_parent_id := some 1,
    parent_ids := {1, 2} }

/-- A populated bin with a nonzero target count. -/
def populatedBin : BinState :=
  { count := 1, target_count := 1, weight := 1 }

/-- A propagation oracle under which every segment fails. -/
def failingPropagation (segments : List Segment) : List Segment :=
  segments.map (fun s => { s with status := SegStatus.failed })

/-! ## Helper lemmas -/

theorem checkSegWeights_error_of (segments : List Segment)
    (h : ∃ s ∈ segments, s.weight = 0) :
    checkSegWeights segments = Except.error RunError.assertionError := by
  unfold checkSegWeights
  rw [if_pos]
  simp only [List.any_eq_true, List.mem_map, decide_eq_true_eq]
  obtain ⟨s, hs, hw⟩ := h
  exact ⟨s.weight, ⟨s, hs, rfl⟩, hw⟩

theorem checkSegWeights_ok_of (segments : List Segment)
    (h : ∀ s ∈ segments, s.weight ≠ 0) :
    checkSegWeights segments = Except.ok ((segments.map (fun s => s.weight)).sum) := by
  unfold checkSegWeights
  rw [if_neg]
  simp only [List.any_eq_true, List.mem_map, decide_eq_true_eq, not_exists, not_and]
  rintro w ⟨s, hs, rfl⟩
  exact h s hs

theorem minNonzero_ok_of (xs : List ℚ) (h : ∃ x ∈ xs, x ≠ 0) :
    ∃ v, minNonzero xs = Except.ok v := by
  unfold minNonzero
  obtain ⟨x, hx, hx0⟩ := h
  have hmem : x ∈ xs.filter (fun x => decide (x ≠ 0)) := by
    simp [List.mem_filter, hx, hx0]
  rcases hf : xs.filter (fun x => decide (x ≠ 0)) with _ | ⟨y, ys⟩
  · rw [hf] at hmem; exact absurd hmem (List.not_mem_nil x)
  · exact ⟨ys.foldl min y, rfl⟩

theorem minNonzero_error_of (xs : List ℚ) (h : ∀ x ∈ xs, x = 0) :
    minNonzero xs = Except.error RunError.valueError := by
  unfold minNonzero
  have hf : xs.filter (fun x => decide (x ≠ 0)) = [] := by
    rw [List.filter_eq_nil_iff]
    intro x hx
    simpa using h x hx
  rw [hf]

theorem maxAll_ok_of (xs : List ℚ) (h : xs ≠ []) : ∃ v, maxAll xs = Except.ok v := by
  unfold maxAll
  rcases xs with _ | ⟨y, ys⟩
  · exact absurd rfl h
  · exact ⟨ys.foldl max y, rfl⟩

theorem foldl_min_pos (y : ℚ) (ys : List ℚ) (hy : 0 < y) (hys : ∀ x ∈ ys, 0 < x) :
    0 < List.foldl min y ys := by
  induction ys generalizing y with
  | nil => exact hy
  | cons a ys ih =>
    rw [List.foldl_cons]
    exact ih (min y a) (lt_min hy (hys a (List.mem_cons_self a ys)))
      (fun x hx => hys x (List.mem_cons_of_mem a hx))

theorem minNonzero_pos (xs : List ℚ) (v : ℚ) (hnn : ∀ x ∈ xs, 0 ≤ x)
    (h : minNonzero xs = Except.ok v) : 0 < v := by
  unfold minNonzero at h
  rcases hf : xs.filter (fun x => decide (x ≠ 0)) with _ | ⟨y, ys⟩ <;> rw [hf] at h
  · exact Except.noConfusion h
  · have hpos : ∀ x ∈ y :: ys, 0 < x := by
      intro x hx
      have hx2 : x ∈ xs.filter (fun x => decide (x ≠ 0)) := by
        rw [hf]
        exact hx
      rw [List.mem_filter] at hx2
      exact lt_of_le_of_ne (hnn x hx2.1) (Ne.symm (by simpa using hx2.2))
    have hv : v = List.foldl min y ys := by
      injection h with h2
      exact h2.symm
    rw [hv]
    exact foldl_min_pos y ys (hpos y (List.mem_cons_self y ys))
      (fun x hx => hpos x (List.mem_cons_of_mem y hx))

theorem le_foldl_max_init (y : ℚ) (ys : List ℚ) : y ≤ List.foldl max y ys := by
  induction ys generalizing y with
  | nil => exact le_refl y
  | cons a ys ih =>
    rw [List.foldl_cons]
    exact le_trans (le_max_left y a) (ih (max y a))

theorem mem_le_foldl_max (x y : ℚ) (ys : List ℚ) (hx : x ∈ y :: ys) :
    x ≤ List.foldl max y ys := by
  induction ys generalizing y with
  | nil =>
    rw [List.mem_singleton] at hx
    rw [hx, List.foldl_nil]
  | cons a ys ih =>
    rw [List.foldl_cons]
    rcases List.mem_cons.mp hx with rfl | hx2
    · exact le_trans (le_max_left x a) (le_foldl_max_init (max x a) ys)
    · rcases List.mem_cons.mp hx2 with rfl | hx3
      · exact le_trans (le_max_right y x) (le_foldl_max_init (max y x) ys)
      · exact ih (max y a) (List.mem_cons_of_mem (max y a) hx3)

theorem maxAll_ge_mem (xs : List ℚ) (v x : ℚ) (h : maxAll xs = Except.ok v)
    (hx : x ∈ xs) : x ≤ v := by
  unfold maxAll at h
  rcases xs with _ | ⟨y, ys⟩
  · exact absurd hx (List.not_mem_nil x)
  · have hv : v = List.foldl max y ys := by
      injection h with h2
      exact h2.symm
    rw [hv]
    exact mem_le_foldl_max x y ys hx

theorem firstEntryStats_ok_implies (assign : Pcoord → ℕ) (bins0 : List BinState)
    (segments : List Segment)
    (hok : exceptIsOk (firstEntryStats assign bins0 segments) = true) :
    ((∃ s ∈ segments, s.weight ≠ 0)
     ∧ (∃ b ∈ binsAfterInitial assign bins0 segments, b.weight ≠ 0)
     ∧ (∃ b ∈ binsAfterInitial assign bins0 segments, b.target_count ≠ 0)) := by
  simp only [firstEntryStats] at hok
  by_cases h1 : ∃ s ∈ segments, s.weight ≠ 0
  · obtain ⟨v1, hv1⟩ := minNonzero_ok_of (segments.map (fun s => s.weight))
      (by obtain ⟨s, hs, hw⟩ := h1; exact ⟨s.weight, List.mem_map.mpr ⟨s, hs, rfl⟩, hw⟩)
    have hne : segments ≠ [] := by
      rintro rfl
      simp at h1
    obtain ⟨v2, hv2⟩ := maxAll_ok_of (segments.map (fun s => s.weight)) (by simpa using hne)
    rw [hv1, hv2] at hok
    dsimp only at hok
    by_cases hr1 : v2 / v1 ≤ 0
    · rw [if_pos hr1] at hok
      simp [exceptIsOk] at hok
    · rw [if_neg hr1] at hok
      by_cases h2 : ∃ b ∈ binsAfterInitial assign bins0 segments, b.weight ≠ 0
      · obtain ⟨v3, hv3⟩ := minNonzero_ok_of
            ((binsAfterInitial assign bins0 segments).map (fun b => b.weight))
          (by obtain ⟨b, hb, hw⟩ := h2; exact ⟨b.weight, List.mem_map.mpr ⟨b, hb, rfl⟩, hw⟩)
        have hbne : binsAfterInitial assign bins0 segments ≠ [] := by
          intro hb
          rw [hb] at h2
          simp at h2
        obtain ⟨v4, hv4⟩ := maxAll_ok_of
            ((binsAfterInitial assign bins0 segments).map (fun b => b.weight))
          (by simpa using hbne)
        rw [hv3, hv4] at hok
        dsimp only at hok
        by_cases hr2 : v4 / v3 ≤ 0
        · rw [if_pos hr2] at hok
          simp [exceptIsOk] at hok
        · rw [if_neg hr2] at hok
          by_cases h3 : ∃ b ∈ binsAfterInitial assign bins0 segments, b.target_count ≠ 0
          · exact ⟨h1, h2, h3⟩
          · have hcount : (((binsAfterInitial assign bins0 segments).filter
                (fun b => decide (b.target_count ≠ 0))).length = 0) := by
              rw [List.length_eq_zero, List.filter_eq_nil_iff]
              simpa using h3
            rw [if_pos hcount] at hok
            simp [exceptIsOk] at hok
      · rw [minNonzero_error_of
            ((binsAfterInitial assign bins0 segments).map (fun b => b.weight))
            (by
              intro x hx
              rw [List.mem_map] at hx
              obtain ⟨b, hb, rfl⟩ := hx
              by_contra hw
              exact h2 ⟨b, hb, hw⟩)] at hok
        simp [exceptIsOk] at hok
  · rw [minNonzero_error_of (segments.map (fun s => s.weight))
        (by
          intro x hx
          rw [List.mem_map] at hx
          obtain ⟨s, hs, rfl⟩ := hx
          by_contra hw
          exact h1 ⟨s, hs, hw⟩)] at hok
    simp [exceptIsOk] at hok

theorem firstEntryStats_ok_of_nonneg (assign : Pcoord → ℕ) (bins0 : List BinState)
    (segments : List Segment)
    (hnn1 : ∀ s ∈ segments, 0 ≤ s.weight)
    (hnn2 : ∀ b ∈ binsAfterInitial assign bins0 segments, 0 ≤ b.weight)
    (h1 : ∃ s ∈ segments, s.weight ≠ 0)
    (h2 : ∃ b ∈ binsAfterInitial assign bins0 segments, b.weight ≠ 0)
    (h3 : ∃ b ∈ binsAfterInitial assign bins0 segments, b.target_count ≠ 0) :
    exceptIsOk (firstEntryStats assign bins0 segments) = true := by
  simp only [firstEntryStats]
  obtain ⟨v1, hv1⟩ := minNonzero_ok_of (segments.map (fun s => s.weight))
    (by obtain ⟨s, hs, hw⟩ := h1; exact ⟨s.weight, List.mem_map.mpr ⟨s, hs, rfl⟩, hw⟩)
  have hv1pos : 0 < v1 := by
    apply minNonzero_pos (segments.map (fun s => s.weight)) v1 _ hv1
    intro x hx
    rw [List.mem_map] at hx
    obtain ⟨s, hs, rfl⟩ := hx
    exact hnn1 s hs
  have hne : segments ≠ [] := by
    rintro rfl
    simp at h1
  obtain ⟨v2, hv2⟩ := maxAll_ok_of (segments.map (fun s => s.weight)) (by simpa using hne)
  have hv2pos : 0 < v2 := by
    obtain ⟨s, hs, hw⟩ := h1
    have hle : s.weight ≤ v2 :=
      maxAll_ge_mem (segments.map (fun s => s.weight)) v2 s.weight hv2
        (List.mem_map.mpr ⟨s, hs, rfl⟩)
    have hsp : 0 < s.weight := lt_of_le_of_ne (hnn1 s hs) (Ne.symm hw)
    exact lt_of_lt_of_le hsp hle
  rw [hv1, hv2]
  dsimp only
  rw [if_neg (not_le.mpr (div_pos hv2pos hv1pos))]
  obtain ⟨v3, hv3⟩ := minNonzero_ok_of
      ((binsAfterInitial assign bins0 segments).map (fun b => b.weight))
    (by obtain ⟨b, hb, hw⟩ := h2; exact ⟨b.weight, List.mem_map.mpr ⟨b, hb, rfl⟩, hw⟩)
  have hv3pos : 0 < v3 := by
    apply minNonzero_pos ((binsAfterInitial assign bins0 segments).map (fun b => b.weight))
      v3 _ hv3
    intro x hx
    rw [List.mem_map] at hx
    obtain ⟨b, hb, rfl⟩ := hx
    exact hnn2 b hb
  have hbne : binsAfterInitial assign bins0 segments ≠ [] := by
    intro hb
    rw [hb] at h2
    simp at h2
  obtain ⟨v4, hv4⟩ := maxAll_ok_of
      ((binsAfterInitial assign bins0 segments).map (fun b => b.weight))
    (by simpa using hbne)
  have hv4pos : 0 < v4 := by
    obtain ⟨b, hb, hw⟩ := h2
    have hle : b.weight ≤ v4 :=
      maxAll_ge_mem ((binsAfterInitial assign bins0 segments).map (fun b => b.weight))
        v4 b.weight hv4 (List.mem_map.mpr ⟨b, hb, rfl⟩)
    have hbp : 0 < b.weight := lt_of_le_of_ne (hnn2 b hb) (Ne.symm hw)
    exact lt_of_lt_of_le hbp hle
  rw [hv3, hv4]
  dsimp only
  rw [if_neg (not_le.mpr (div_pos hv4pos hv3pos))]
  have hcount : ¬ (((binsAfterInitial assign bins0 segments).filter
      (fun b => decide (b.target_count ≠ 0))).length = 0) := by
    rw [List.length_eq_zero, List.filter_eq_nil_iff]
    intro hall
    obtain ⟨b, hb, ht⟩ := h3
    exact absurd (by simpa using ht) (by simpa using hall b hb)
  rw [if_neg hcount]
  rfl

theorem mem_loopIters (current max_iter n : Int) :
    n ∈ loopIters current max_iter ↔ current ≤ n ∧ n ≤ max_iter := by
  induction current, max_iter using loopIters.induct with
  | case1 current max_iter h ih =>
    rw [loopIters, if_pos h, List.mem_cons, ih]
    omega
  | case2 current max_iter h =>
    rw [loopIters, if_neg h]
    simp
    omega

/-! ## Claims -/

/-- Claim C5: when `limits.max_iterations` is unset the driver defaults it
to `current + 1` and the loop body runs for the current iteration and one
further iteration before completing; in general the body runs exactly for
every `n_iter` from the starting `current_iteration` through `max_iter`
inclusive. -/
theorem run_loop_iteration_range (current : Int) (configured : Option Int) :
    (∀ n : Int, n ∈ loopIters current (maxIterSetting current configured) ↔
      current ≤ n ∧ n ≤ maxIterSetting current configured)
    ∧ (configured = none →
        maxIterSetting current configured = current + 1 ∧
        loopIters current (maxIterSetting current configured) = [current, current + 1]) := by
  constructor
  · intro n
    exact mem_loopIters current (maxIterSetting current configured) n
  · rintro rfl
    have hm : maxIterSetting current none = current + 1 := rfl
    refine ⟨hm, ?_⟩
    rw [hm, loopIters, if_pos (by omega), loopIters, if_pos (by omega),
      loopIters, if_neg (by omega)]

/-- Witness for C5 at a concrete starting iteration. -/
theorem run_loop_iteration_range_witness :
    maxIterSetting 5 none = 5 + 1 ∧ loopIters 5 (maxIterSetting 5 none) = [5, 5 + 1] :=
  (run_loop_iteration_range 5 none).2 rfl

/-- Claim C6 (code-bug evidence): `load_we_driver` with a non-default
driver name stores the loaded object in `work_manager` and leaves
`we_driver` untouched, while the default name is stored in `we_driver`;
the claim (and the specification) require the non-default object to land
in `we_driver` with `work_manager` unchanged. -/
theorem load_we_driver_nondefault_sets_work_manager :
    load_we_driver (some "mymodule.MyWEDriver") {} =
      { we_driver := none,
        work_manager := some (DriverObj.externalDriver "mymodule.MyWEDriver") }
    ∧ load_we_driver (some "Default") {} =
      { we_driver := some DriverObj.defaultWEDriver, work_manager := none }
    ∧ load_we_driver none {} =
      { we_driver := some DriverObj.defaultWEDriver, work_manager := none } := by
  refine ⟨?_, ?_, ?_⟩ <;> decide

/-- Claim C7 (code-bug evidence): with `limits.max_wallclock` unset the
source computes `run_killtime = run_starttime + max_walltime` with
`max_walltime = None`, which raises `TypeError` before any iteration runs;
the per-iteration budget check itself would never trigger for an unset
limit, which is the spec's (and the claim's) intended behavior. -/
theorem max_wallclock_unset_raises_type_error :
    run_killtime_setup 1000 none = Except.error RunError.typeError
    ∧ (∀ now iteration_elapsed run_killtime : ℚ,
        budget_check none now iteration_elapsed run_killtime = false) :=
  ⟨rfl, fun _ _ _ => rfl⟩

/-- Claim C8: the iteration entry check fails fatally exactly when some
segment weight is zero, and otherwise passes producing
`norm = Σ weights`; a zero weight also aborts the whole iteration body
with the assertion error. -/
theorem zero_weight_check (segments : List Segment) :
    ((∃ s ∈ segments, s.weight = 0) →
      checkSegWeights segments = Except.error RunError.assertionError
      ∧ ∀ store0 bins assign propagate we n_iter,
          (iterationBody store0 segments bins assign propagate we n_iter).error
            = some RunError.assertionError)
    ∧ ((∀ s ∈ segments, s.weight ≠ 0) →
      checkSegWeights segments = Except.ok ((segments.map (fun s => s.weight)).sum)) := by
  constructor
  · intro h
    have hc := checkSegWeights_error_of segments h
    refine ⟨hc, ?_⟩
    intro store0 bins assign propagate we n_iter
    unfold iterationBody
    rw [hc]
  · exact checkSegWeights_ok_of segments

/-- Witness for C8: a zero-weight segment aborts; a unit-weight segment
passes with its weight as the norm. -/
theorem zero_weight_check_witness :
    checkSegWeights [zeroWeightSegment] = Except.error RunError.assertionError
    ∧ checkSegWeights [plainSegment]
        = Except.ok (([plainSegment].map (fun s => s.weight)).sum) :=
  ⟨((zero_weight_check [zeroWeightSegment]).1
      ⟨zeroWeightSegment, List.mem_singleton.mpr rfl, rfl⟩).1,
   (zero_weight_check [plainSegment]).2 (by decide)⟩

/-- Claim C9: checking immediately after recording succeeds; the check
returns true exactly when the stored `binhash` attribute equals the
current identity-hash digest, and in particular returns false for any
digest different from the recorded one (i.e. after the partition, and
hence the identity hash, has changed). -/
theorem binhash_record_check (o : H5Object) (region_set_hash : Digest) :
    check_data_binhash (record_data_binhash o region_set_hash) region_set_hash = true
    ∧ (check_data_binhash o region_set_hash = true ↔
        o.attrsGet "binhash" = some region_set_hash)
    ∧ (∀ newHash : Digest, newHash ≠ region_set_hash →
        check_data_binhash (record_data_binhash o region_set_hash) newHash = false) := by
  refine ⟨?_, ?_, ?_⟩
  · simp [check_data_binhash, record_data_binhash, H5Object.attrsSet, H5Object.attrsGet,
      List.lookup]
  · simp [check_data_binhash]
  · intro newHash hne
    simp [check_data_binhash, record_data_binhash, H5Object.attrsSet, H5Object.attrsGet,
      List.lookup]
    exact fun hcontra => absurd hcontra.symm hne

/-- Witness for C9 on a concrete object and digests. -/
theorem binhash_record_check_witness :
    check_data_binhash (record_data_binhash {} [1, 2]) [1, 2] = true
    ∧ check_data_binhash (record_data_binhash {} [1, 2]) [3] = false :=
  ⟨(binhash_record_check {} [1, 2]).1,
   (binhash_record_check {} [1, 2]).2.2 [3] (by decide)⟩

/-- Claim C3: the segment materialized from an offspring particle carries
the particle's weight, status `PREPARED`, a pcoord whose element 0 is the
particle's point, and lineage determined by `p_parent_id`: with no
primary parent (direct continuation or recycle, requiring empty
`parent_ids` and a present `seg_id`) the segment's primary parent and
parent set are the particle's `seg_id`; after a split or merge (requiring
nonempty `parent_ids` and no `seg_id`) they are the particle's
`p_parent_id` and `parent_ids`; `n_parents` is the parent-set size in
both cases. -/
theorem materializeSegment_spec (p : Particle) :
    (∀ sid : Int, p.p_parent_id = none → p.parent_ids = ∅ → p.seg_id = some sid →
      materializeSegment p = Except.ok
        { seg_id := none, weight := p.weight, pcoord := [p.pcoord],
          status := SegStatus.prepared, p_parent_id := some sid,
          parent_ids := {sid}, n_parents := ({sid} : Finset Int).card,
          endpoint_type := none, cputime := 0 })
    ∧ (∀ pp : Int, p.p_parent_id = some pp → p.parent_ids ≠ ∅ → p.seg_id = none →
      materializeSegment p = Except.ok
        { seg_id := none, weight := p.weight, pcoord := [p.pcoord],
          status := SegStatus.prepared, p_parent_id := some pp,
          parent_ids := p.parent_ids, n_parents := p.parent_ids.card,
          endpoint_type := none, cputime := 0 }) := by
  constructor
  · intro sid h1 h2 h3
    simp [materializeSegment, h1, h2, h3]
  · intro pp h1 h2 h3
    simp [materializeSegment, h1, h2, h3]

/-- Witness for C3: one direct-continuation particle and one merge
product. -/
theorem materializeSegment_spec_witness :
    materializeSegment directParticle = Except.ok
      { seg_id := none, weight := directParticle.weight,
        pcoord := [directParticle.pcoord], status := SegStatus.prepared,
        p_parent_id := some 3, parent_ids := {3},
        n_parents := ({3} : Finset Int).card, endpoint_type := none, cputime := 0 }
    ∧ materializeSegment mergedParticle = Except.ok
      { seg_id := none, weight := mergedParticle.weight,
        pcoord := [mergedParticle.pcoord], status := SegStatus.prepared,
        p_parent_id := some 1, parent_ids := mergedParticle.parent_ids,
        n_parents := mergedParticle.parent_ids.card, endpoint_type := none, cputime := 0 } :=
  ⟨(materializeSegment_spec directParticle).1 3 rfl rfl rfl,
   (materializeSegment_spec mergedParticle).2 1 rfl (by decide) rfl⟩

theorem assignEndpointTypes_length (segments : List Segment)
    (recycle_terminations merge_terminations : Finset Int) :
    (assignEndpointTypes segments recycle_terminations merge_terminations).length
      = segments.length := by
  simp [assignEndpointTypes]

/-- Claim C4 counterexample: for a seg_id lying in both termination sets
the claim requires endpoint type `RECYCLED`, but the source's later merge
loop overwrites it to `MERGED`. -/
theorem assignEndpointTypes_overlap_cex :
    (0 : Int) ∈ ({0} : Finset Int)
    ∧ ((assignEndpointTypes [plainSegment] {0} {0}).headD plainSegment).endpoint_type
        = some EndpointType.merged
    ∧ some EndpointType.merged ≠ some EndpointType.recycled := by
  refine ⟨by decide, by decide, by decide⟩

/-- Claim C4 as amended: after the assignment step, the segment at index
(= seg_id) `i` carries endpoint type `MERGED` if `i` is in
`merge_terminations` (even when also recycled, since the merge loop runs
last), otherwise `RECYCLED` if `i` is in `recycle_terminations`, and
`CONTINUES` otherwise; when the two sets are disjoint this coincides with
the claimed assignment. -/
theorem assignEndpointTypes_spec (segments : List Segment)
    (recycle_terminations merge_terminations : Finset Int) (i : ℕ)
    (h : i < (assignEndpointTypes segments recycle_terminations merge_terminations).length) :
    ((assignEndpointTypes segments recycle_terminations merge_terminations).get
        ⟨i, h⟩).endpoint_type
      = some (if (i : Int) ∈ merge_terminations then EndpointType.merged
          else if (i : Int) ∈ recycle_terminations then EndpointType.recycled
          else EndpointType.continues) := by
  have hlen : i < segments.length := by
    rwa [assignEndpointTypes_length] at h
  unfold assignEndpointTypes
  rw [List.get_mapIdx _ _ _ (by simpa using hlen), List.get_mapIdx _ _ _ (by simpa using hlen)]
  by_cases hm : (i : Int) ∈ merge_terminations <;>
    by_cases hr : (i : Int) ∈ recycle_terminations <;>
      simp [hm, hr]

/-- Witness for C4 at concrete indices and sets. -/
theorem assignEndpointTypes_spec_witness :
    ((assignEndpointTypes [plainSegment, completeSegment] {0} {1}).get
        ⟨0, by decide⟩).endpoint_type
      = some (if (0 : Int) ∈ ({1} : Finset Int) then EndpointType.merged
          else if (0 : Int) ∈ ({0} : Finset Int) then EndpointType.recycled
          else EndpointType.continues) :=
  assignEndpointTypes_spec [plainSegment, completeSegment] {0} {1} 0 (by decide)

/-- Claim C10: the first-entry statistics phase requires at least one bin
(after the initial binning step) with a nonzero target count, at least
one bin holding nonzero weight, and at least one segment holding nonzero
weight: success implies all three, i.e. whenever one of the requirements
fails the phase itself fails (an empty nonzero-minimum selection, a
logarithm domain error, or a division by a zero active-bin count) instead
of producing sentinel statistics.  Moreover, for nonnegative weights —
where the `math.log` domain checks of lines 153/156 cannot fire — the
three requirements are exactly equivalent to success.  (With mixed-sign
weights the phase can additionally fail in `math.log` on a non-positive
ratio, which the model's domain checks reproduce.) -/
theorem firstEntryStats_requirements (assign : Pcoord → ℕ) (bins0 : List BinState)
    (segments : List Segment) :
    (exceptIsOk (firstEntryStats assign bins0 segments) = true →
      ((∃ s ∈ segments, s.weight ≠ 0)
       ∧ (∃ b ∈ binsAfterInitial assign bins0 segments, b.weight ≠ 0)
       ∧ (∃ b ∈ binsAfterInitial assign bins0 segments, b.target_count ≠ 0)))
    ∧ ((∀ s ∈ segments, 0 ≤ s.weight) →
       (∀ b ∈ binsAfterInitial assign bins0 segments, 0 ≤ b.weight) →
       (exceptIsOk (firstEntryStats assign bins0 segments) = true ↔
         ((∃ s ∈ segments, s.weight ≠ 0)
          ∧ (∃ b ∈ binsAfterInitial assign bins0 segments, b.weight ≠ 0)
          ∧ (∃ b ∈ binsAfterInitial assign bins0 segments, b.target_count ≠ 0)))) := by
  refine ⟨firstEntryStats_ok_implies assign bins0 segments, ?_⟩
  intro hnn1 hnn2
  constructor
  · exact firstEntryStats_ok_implies assign bins0 segments
  · rintro ⟨h1, h2, h3⟩
    exact firstEntryStats_ok_of_nonneg assign bins0 segments hnn1 hnn2 h1 h2 h3

/-- Witness for C10: with one populated unit-weight bin and one
unit-weight segment (nonnegative weights throughout) the statistics phase
succeeds. -/
theorem firstEntryStats_requirements_witness :
    exceptIsOk (firstEntryStats (fun _ => 0) [populatedBin] [plainSegment]) = true :=
  ((firstEntryStats_requirements (fun _ => 0) [populatedBin] [plainSegment]).2
      (by decide) (by decide)).mpr
    ⟨⟨plainSegment, List.mem_singleton.mpr rfl, by decide⟩,
     ⟨populatedBin, by decide, by decide⟩,
     ⟨populatedBin, by decide, by decide⟩⟩

/-- Claim C1: when some segment is not `COMPLETE` after propagation the
iteration body aborts with the `RuntimeError` listing the failed seg_ids;
nothing was flushed since entry, so the committed (flushed) state is
still the one from entry — iteration *n*'s `PREPARED` segments — even
though the propagation results (with their `FAILED` statuses) sit
unflushed in the written state; `current_iteration` is not advanced. -/
theorem propagation_failure_aborts (store0 : Store) (segments : List Segment)
    (bins : List BinState) (assign : Pcoord → ℕ)
    (propagate : List Segment → List Segment) (we : WEOutput) (n_iter : Int)
    (hw : ∀ s ∈ segments, s.weight ≠ 0)
    (hstats : (segments.filter (fun s => decide (s.status = SegStatus.prepared))).length
        = segments.length →
      ∃ st, firstEntryStats assign bins segments = Except.ok st)
    (hfail : (propagate segments).filter
        (fun s => decide (s.status ≠ SegStatus.complete)) ≠ []) :
    (iterationBody store0 segments bins assign propagate we n_iter).error
      = some (RunError.propagationFailed
          (((propagate segments).filter
              (fun s => decide (s.status ≠ SegStatus.complete))).map (fun s => s.seg_id)))
    ∧ (iterationBody store0 segments bins assign propagate we n_iter).store.flushed
        = store0.flushed
    ∧ (iterationBody store0 segments bins assign propagate we n_iter).store.written.curSegs
        = propagate segments
    ∧ (iterationBody store0 segments bins assign propagate we
        n_iter).store.written.current_iteration
        = store0.written.current_iteration := by
  have hck := checkSegWeights_ok_of segments hw
  simp only [iterationBody, hck]
  by_cases hlen : (segments.filter (fun s => decide (s.status = SegStatus.prepared))).length
      = segments.length
  · obtain ⟨st, hst⟩ := hstats hlen
    rw [if_pos hlen, hst]
    dsimp only
    rw [if_neg hfail]
    exact ⟨rfl, rfl, rfl, rfl⟩
  · rw [if_neg hlen]
    dsimp only
    rw [if_neg hfail]
    exact ⟨rfl, rfl, rfl, rfl⟩

/-- Witness for C1: one already-complete unit-weight segment (so the
first-entry branch is skipped) whose propagation oracle marks everything
`FAILED`. -/
theorem propagation_failure_aborts_witness :
    (iterationBody {} [completeSegment] [] (fun _ => 0) failingPropagation {} 1).error
      = some (RunError.propagationFailed
          (((failingPropagation [completeSegment]).filter
              (fun s => decide (s.status ≠ SegStatus.complete))).map (fun s => s.seg_id)))
    ∧ (iterationBody {} [completeSegment] [] (fun _ => 0) failingPropagation {} 1).store.flushed
        = Store.flushed {}
    ∧ (iterationBody {} [completeSegment] [] (fun _ => 0)
        failingPropagation {} 1).store.written.curSegs
        = failingPropagation [completeSegment]
    ∧ (iterationBody {} [completeSegment] [] (fun _ => 0)
        failingPropagation {} 1).store.written.current_iteration
        = (Store.written {}).current_iteration :=
  propagation_failure_aborts {} [completeSegment] [] (fun _ => 0) failingPropagation {} 1
    (by decide) (fun h => absurd h (by decide)) (by decide)

/-- Claim C2 counterexample: a successful iteration of the source in
which the claim's flush discipline is violated — no `flush_backing`
separates the endpoint commit (line 199) from the endpoint-type commit
(line 268), so `eachTransitionFlushed` fails on the emitted trace even
though the run succeeded. -/
theorem commit_flush_cex :
    (iterationBody {} [completeSegment] [] (fun _ => 0) id {} 1).error = none
    ∧ eachTransitionFlushed
        (iterationBody {} [completeSegment] [] (fun _ => 0) id {} 1).trace false = false := by
  exact ⟨by decide, by decide⟩

/-- Claim C2 as amended: on every successful iteration the four durable
transitions occur in the order `COMMIT_ENDPOINTS`,
`COMMIT_ENDPOINT_TYPES`, `COMMIT_NEXT`, `ADVANCE`; a `flush_backing`
follows `COMMIT_ENDPOINT_TYPES` (line 269) and another follows
`COMMIT_NEXT` (line 321) before `ADVANCE`, but no flush separates
`COMMIT_ENDPOINTS` from `COMMIT_ENDPOINT_TYPES` (they are made durable
together by the line-269 flush) and `ADVANCE` is not followed by a flush
within the iteration. -/
theorem commit_order_and_flush_points (store0 : Store) (segments : List Segment)
    (bins : List BinState) (assign : Pcoord → ℕ)
    (propagate : List Segment → List Segment) (we : WEOutput) (n_iter : Int)
    (h : (iterationBody store0 segments bins assign propagate we n_iter).error = none) :
    keyEvents (iterationBody store0 segments bins assign propagate we n_iter).trace
      = [Event.commitEndpoints, Event.commitEndpointTypes, Event.flush,
         Event.commitNext, Event.flush, Event.advance] := by
  simp only [iterationBody] at h ⊢
  revert h
  cases hck : checkSegWeights segments with
  | error e =>
    intro h
    simp at h
  | ok nrm =>
    intro h
    dsimp only at h ⊢
    by_cases hlen : (segments.filter (fun s => decide (s.status = SegStatus.prepared))).length
        = segments.length
    · rw [if_pos hlen] at h ⊢
      revert h
      cases hst : firstEntryStats assign bins segments with
      | error e =>
        intro h
        simp at h
      | ok st =>
        intro h
        dsimp only at h ⊢
        by_cases hfe : (propagate segments).filter
            (fun s => decide (s.status ≠ SegStatus.complete)) = []
        · rw [if_pos hfe] at h ⊢
          revert h
          cases hm : materializeAll we.next_iter_particles with
          | error e =>
            intro h
            simp at h
          | ok new_segments =>
            intro _
            rfl
        · rw [if_neg hfe] at h
          simp at h
    · rw [if_neg hlen] at h ⊢
      dsimp only at h ⊢
      by_cases hfe : (propagate segments).filter
          (fun s => decide (s.status ≠ SegStatus.complete)) = []
      · rw [if_pos hfe] at h ⊢
        revert h
        cases hm : materializeAll we.next_iter_particles with
        | error e =>
          intro h
          simp at h
        | ok new_segments =>
          intro _
          rfl
      · rw [if_neg hfe] at h
        simp at h

/-- Witness for C2's amended theorem on a concrete successful run. -/
theorem commit_order_and_flush_points_witness :
    keyEvents (iterationBody {} [completeSegment] [] (fun _ => 0) id {} 1).trace
      = [Event.commitEndpoints, Event.commitEndpointTypes, Event.flush,
         Event.commitNext, Event.flush, Event.advance] :=
  commit_order_and_flush_points {} [completeSegment] [] (fun _ => 0) id {} 1 (by decide)
